import Mathlib

/-!
Shallow embedding of the pgdrift analytical core, translated from the Rust
sources:
  crates/pgdrift-core/src/types.rs     (JsonType)
  crates/pgdrift-core/src/stats.rs     (FieldStats)
  crates/pgdrift-core/src/analyzer.rs  (JsonAnalyzer)
  crates/pgdrift-core/src/drift.rs     (DriftConfig, drift detectors)
  crates/pgdrift-core/src/index.rs     (index recommendations)
  crates/pgdrift-db/src/sampler.rs     (SamplingStrategy, Sampler)

Modelling conventions: Rust u64/usize counters become Nat, i64 becomes Int,
f64/f32 become ℚ (exact rational arithmetic in place of floating point),
serde_json::Value becomes the inductive `Json` below, and HashMaps become
functions (String → Option FieldStats for the analyzer's map, JsonType → Nat
for the per-type histogram, where a count of 0 stands for an absent entry —
entries created by `record` always hold a count of at least 1).  HashMap
iteration order is unspecified in Rust; where the source folds over a map
(`max_by_key`, `max_by`) the embedding iterates in a fixed canonical order
and keeps Rust's last-maximum tie-breaking.  Numeric-to-text formatting of
percentages is abstracted by `fmtQ`.
-/

namespace Pgdrift

mutual

/-- serde_json::Value (types.rs / serde_json).  Arrays and objects are given
by mutually inductive list types so that all recursion over documents is
structural.  Numbers are abstracted to ℚ. -/
inductive Json where
  | null
  | bool (b : Bool)
  | num (n : ℚ)
  | str (s : String)
  | arr (items : JsonList)
  | obj (fields : JsonFields)

/-- A list of JSON values (an array's items). -/
inductive JsonList where
  | nil
  | cons (head : Json) (tail : JsonList)

/-- An object's fields, in iteration order. -/
inductive JsonFields where
  | nil
  | cons (key : String) (value : Json) (tail : JsonFields)

end

/-- JsonType (types.rs lines 7-14). -/
inductive JsonType where
  | Null
  | Boolean
  | Number
  | String
  | Array
  | Object
deriving DecidableEq

/-- JsonType::from_value (types.rs lines 18-27). -/
def JsonType.from_value (value : Json) : JsonType :=
  match value with
  | .null => .Null
  | .bool _ => .Boolean
  | .num _ => .Number
  | .str _ => .String
  | .arr _ => .Array
  | .obj _ => .Object

/-- The six JsonType constructors, the canonical iteration order for the
embedding's histogram folds. -/
def all_types : List JsonType :=
  [.Null, .Boolean, .Number, .String, .Array, .Object]

/-- FieldStats (stats.rs lines 6-16). `types` is the histogram as a total
function, 0 meaning absent. -/
structure FieldStats where
  path : String
  occurrences : Nat
  total_samples : Nat
  density : ℚ
  null_count : Nat
  types : JsonType → Nat
  examples : List Json
  depth : Nat

/-- FieldStats::new (stats.rs lines 19-30). -/
def FieldStats.new (path : String) (depth : Nat) : FieldStats :=
  { path := path
    occurrences := 0
    total_samples := 0
    density := 0
    null_count := 0
    types := fun _ => 0
    examples := []
    depth := depth }

/-- FieldStats::record (stats.rs lines 33-47): bump occurrences, bump the
histogram bucket of the value's type, bump null_count for nulls, keep at
most 10 examples. -/
def FieldStats.record (self : FieldStats) (value : Json) : FieldStats :=
  { self with
    occurrences := self.occurrences + 1
    types := fun t =>
      if t = JsonType.from_value value then self.types t + 1 else self.types t
    null_count :=
      match value with
      | .null => self.null_count + 1
      | _ => self.null_count
    examples :=
      if self.examples.length < 10 then self.examples ++ [value]
      else self.examples }

/-- FieldStats::finalize (stats.rs lines 49-55). -/
def FieldStats.finalize (self : FieldStats) (total_samples : Nat) : FieldStats :=
  { self with
    total_samples := total_samples
    density :=
      if 0 < total_samples then (self.occurrences : ℚ) / (total_samples : ℚ)
      else self.density }

/-- Sum of the histogram's values (`stats.types.values().sum()`). -/
def sum_types (fs : FieldStats) : Nat :=
  (all_types.map fs.types).sum

/-- Folding FieldStats::record over a list of values, starting from
FieldStats::new. -/
def record_values (path : String) (depth : Nat) (vs : List Json) : FieldStats :=
  vs.foldl FieldStats.record (FieldStats.new path depth)

end Pgdrift

namespace Pgdrift

/-- The analyzer's statistics map (`HashMap<String, FieldStats>`), as a total
function with `none` for absent paths. -/
def StatsMap : Type := String → Option FieldStats

/-- JsonAnalyzer (analyzer.rs lines 5-8). -/
structure JsonAnalyzer where
  stats : StatsMap
  total_samples : Nat

/-- JsonAnalyzer::new (analyzer.rs lines 17-22). -/
def JsonAnalyzer.new : JsonAnalyzer :=
  { stats := fun _ => none, total_samples := 0 }

/-- JsonAnalyzer::record_field (analyzer.rs lines 59-64): entry(path)
.or_insert_with(FieldStats::new).record(value). -/
def record_field (m : StatsMap) (path : String) (value : Json) (depth : Nat) :
    StatsMap :=
  fun p =>
    if p = path then
      some (((m path).getD (FieldStats.new path depth)).record value)
    else m p

mutual

/-- JsonAnalyzer::walk (analyzer.rs lines 31-57): objects record and recurse
into each field at depth+1; arrays recurse into items under `path ++ "[]"`;
leaves are recorded by their parent. -/
def walk (m : StatsMap) (path : String) (value : Json) (depth : Nat) :
    StatsMap :=
  match value with
  | .obj fields => walk_fields m path fields depth
  | .arr items => walk_items m (path ++ "[]") items depth
  | _ => m

/-- The object branch of walk: for each (key, val), record_field then walk,
in field order. -/
def walk_fields (m : StatsMap) (path : String) (fields : JsonFields)
    (depth : Nat) : StatsMap :=
  match fields with
  | .nil => m
  | .cons key val rest =>
      let field_path := if path.isEmpty then key else path ++ "." ++ key
      walk_fields
        (walk (record_field m field_path val (depth + 1)) field_path val
          (depth + 1))
        path rest depth

/-- The array branch of walk: walk each item at depth+1 under the array
path. -/
def walk_items (m : StatsMap) (path : String) (items : JsonList)
    (depth : Nat) : StatsMap :=
  match items with
  | .nil => m
  | .cons x rest => walk_items (walk m path x (depth + 1)) path rest depth

end

/-- JsonAnalyzer::analyze (analyzer.rs lines 25-28): bump total_samples, walk
from the empty path at depth 0. -/
def JsonAnalyzer.analyze (self : JsonAnalyzer) (value : Json) : JsonAnalyzer :=
  { stats := walk self.stats "" value 0
    total_samples := self.total_samples + 1 }

/-- JsonAnalyzer::finalize (analyzer.rs lines 66-71): every entry receives
the analyzer's total_samples. -/
def JsonAnalyzer.finalize (self : JsonAnalyzer) : StatsMap :=
  fun p => (self.stats p).map (fun fs => fs.finalize self.total_samples)

/-- Analyzing a list of documents in order, from a fresh analyzer. -/
def analyze_docs (docs : List Json) : JsonAnalyzer :=
  docs.foldl JsonAnalyzer.analyze JsonAnalyzer.new

end Pgdrift

namespace Pgdrift

mutual

/-- The record events (field path, value, recording depth) that
JsonAnalyzer::walk issues for a value, in order. -/
def walk_events (path : String) (value : Json) (depth : Nat) :
    List (String × Json × Nat) :=
  match value with
  | .obj fields => fields_events path fields depth
  | .arr items => items_events (path ++ "[]") items depth
  | _ => []

/-- Events of the object branch: record each field, then the field's own
events. -/
def fields_events (path : String) (fields : JsonFields) (depth : Nat) :
    List (String × Json × Nat) :=
  match fields with
  | .nil => []
  | .cons key val rest =>
      let field_path := if path.isEmpty then key else path ++ "." ++ key
      ((field_path, val, depth + 1) :: walk_events field_path val (depth + 1))
        ++ fields_events path rest depth

/-- Events of the array branch. -/
def items_events (path : String) (items : JsonList) (depth : Nat) :
    List (String × Json × Nat) :=
  match items with
  | .nil => []
  | .cons x rest =>
      walk_events path x (depth + 1) ++ items_events path rest depth

end

/-- The effect of one record event on the map's entry at `p`. -/
def apply_event (p : String) (o : Option FieldStats)
    (e : String × Json × Nat) : Option FieldStats :=
  if p = e.1 then some ((o.getD (FieldStats.new e.1 e.2.2)).record e.2.1)
  else o

theorem record_field_at (m : StatsMap) (path : String) (value : Json)
    (depth : Nat) (p : String) :
    record_field m path value depth p = apply_event p (m p) (path, value, depth) := by
  unfold record_field apply_event
  by_cases h : p = path
  · subst h; simp
  · simp [h]

mutual

theorem walk_apply (m : StatsMap) (path : String) (value : Json)
    (depth : Nat) (p : String) :
    walk m path value depth p
      = (walk_events path value depth).foldl (apply_event p) (m p) := by
  cases value with
  | null => simp [walk, walk_events]
  | bool b => simp [walk, walk_events]
  | num n => simp [walk, walk_events]
  | str s => simp [walk, walk_events]
  | obj fields =>
      simp only [walk, walk_events]
      exact fields_apply m path fields depth p
  | arr items =>
      simp only [walk, walk_events]
      exact items_apply m (path ++ "[]") items depth p

theorem fields_apply (m : StatsMap) (path : String) (fields : JsonFields)
    (depth : Nat) (p : String) :
    walk_fields m path fields depth p
      = (fields_events path fields depth).foldl (apply_event p) (m p) := by
  cases fields with
  | nil => simp [walk_fields, fields_events]
  | cons key val rest =>
      simp only [walk_fields, fields_events]
      rw [fields_apply, walk_apply, record_field_at]
      simp [List.foldl_append]

theorem items_apply (m : StatsMap) (path : String) (items : JsonList)
    (depth : Nat) (p : String) :
    walk_items m path items depth p
      = (items_events path items depth).foldl (apply_event p) (m p) := by
  cases items with
  | nil => simp [walk_items, items_events]
  | cons x rest =>
      simp only [walk_items, items_events]
      rw [items_apply, walk_apply]
      simp [List.foldl_append]

end

end Pgdrift

namespace Pgdrift

/-- A counter's reading on an optional entry: 0 for an absent one. -/
def projO (proj : FieldStats → Nat) (o : Option FieldStats) : Nat :=
  match o with
  | none => 0
  | some fs => proj fs

/-- How much a list of events contributes at path `p`, weighing each
recorded value by `g`. -/
def ev_cnt (g : Json → Nat) (p : String) :
    List (String × Json × Nat) → Nat
  | [] => 0
  | e :: rest => (if p = e.1 then g e.2.1 else 0) + ev_cnt g p rest

theorem ev_cnt_append (g : Json → Nat) (p : String)
    (l1 l2 : List (String × Json × Nat)) :
    ev_cnt g p (l1 ++ l2) = ev_cnt g p l1 + ev_cnt g p l2 := by
  induction l1 with
  | nil => simp [ev_cnt]
  | cons e rest ih => simp [ev_cnt, ih]; omega

theorem foldl_apply_cnt (proj : FieldStats → Nat) (g : Json → Nat)
    (hrec : ∀ fs v, proj (fs.record v) = proj fs + g v)
    (hnew : ∀ q d, proj (FieldStats.new q d) = 0) (p : String) :
    ∀ (evs : List (String × Json × Nat)) (o : Option FieldStats),
      projO proj (evs.foldl (apply_event p) o) = projO proj o + ev_cnt g p evs := by
  intro evs
  induction evs with
  | nil => intro o; simp [ev_cnt]
  | cons e rest ih =>
      intro o
      rw [List.foldl_cons, ih]
      have hstep : projO proj (apply_event p o e)
          = projO proj o + (if p = e.1 then g e.2.1 else 0) := by
        unfold apply_event
        by_cases h : p = e.1
        · simp only [h, if_pos rfl, if_true]
          cases o with
          | none => simp [projO, Option.getD, hrec, hnew]
          | some fs => simp [projO, Option.getD, hrec]
        · simp [h]
      rw [hstep, ev_cnt]
      omega

/-- A property preserved by FieldStats::record and true of FieldStats::new
holds of every entry a fold of record events produces. -/
theorem foldl_apply_inv (P : FieldStats → Prop)
    (hrec : ∀ fs v, P fs → P (fs.record v))
    (hnew : ∀ q d, P (FieldStats.new q d)) (p : String) :
    ∀ (evs : List (String × Json × Nat)) (o : Option FieldStats),
      (∀ fs, o = some fs → P fs) →
      ∀ fs, evs.foldl (apply_event p) o = some fs → P fs := by
  intro evs
  induction evs with
  | nil => intro o ho fs hfs; exact ho fs hfs
  | cons e rest ih =>
      intro o ho fs hfs
      rw [List.foldl_cons] at hfs
      refine ih (apply_event p o e) ?_ fs hfs
      intro fs1 h1
      unfold apply_event at h1
      by_cases h : p = e.1
      · simp only [h, if_pos rfl, if_true] at h1
        cases o with
        | none =>
            simp only [Option.getD] at h1
            cases h1
            exact hrec _ _ (hnew _ _)
        | some fs0 =>
            simp only [Option.getD] at h1
            cases h1
            exact hrec _ _ (ho fs0 rfl)
      · simp only [h, if_neg h, if_false] at h1
        exact ho fs1 h1

/-- A fold of record events yields no entry exactly when there was none and
no event hit the path. -/
theorem foldl_apply_eq_none (p : String) :
    ∀ (evs : List (String × Json × Nat)) (o : Option FieldStats),
      evs.foldl (apply_event p) o = none
        ↔ (o = none ∧ ev_cnt (fun _ => 1) p evs = 0) := by
  intro evs
  induction evs with
  | nil => intro o; simp [ev_cnt]
  | cons e rest ih =>
      intro o
      rw [List.foldl_cons, ih, ev_cnt]
      unfold apply_event
      by_cases h : p = e.1
      · simp [h]
      · simp [h]

end Pgdrift

namespace Pgdrift

theorem analyze_cnt (proj : FieldStats → Nat) (g : Json → Nat)
    (hrec : ∀ fs v, proj (fs.record v) = proj fs + g v)
    (hnew : ∀ q d, proj (FieldStats.new q d) = 0)
    (a : JsonAnalyzer) (v : Json) (p : String) :
    projO proj ((a.analyze v).stats p)
      = projO proj (a.stats p) + ev_cnt g p (walk_events "" v 0) := by
  show projO proj (walk a.stats "" v 0 p) = _
  rw [walk_apply]
  exact foldl_apply_cnt proj g hrec hnew p _ _

theorem foldl_analyze_cnt (proj : FieldStats → Nat) (g : Json → Nat)
    (hrec : ∀ fs v, proj (fs.record v) = proj fs + g v)
    (hnew : ∀ q d, proj (FieldStats.new q d) = 0) :
    ∀ (docs : List Json) (a : JsonAnalyzer) (p : String),
      projO proj ((docs.foldl JsonAnalyzer.analyze a).stats p)
        = projO proj (a.stats p)
          + (docs.map (fun D => ev_cnt g p (walk_events "" D 0))).sum := by
  intro docs
  induction docs with
  | nil => intro a p; simp
  | cons D rest ih =>
      intro a p
      rw [List.foldl_cons, ih, analyze_cnt proj g hrec hnew]
      simp
      omega

theorem analyze_docs_cnt (proj : FieldStats → Nat) (g : Json → Nat)
    (hrec : ∀ fs v, proj (fs.record v) = proj fs + g v)
    (hnew : ∀ q d, proj (FieldStats.new q d) = 0)
    (docs : List Json) (p : String) :
    projO proj ((analyze_docs docs).stats p)
      = (docs.map (fun D => ev_cnt g p (walk_events "" D 0))).sum := by
  rw [analyze_docs, foldl_analyze_cnt proj g hrec hnew]
  simp [JsonAnalyzer.new, projO]

theorem analyze_docs_total (docs : List Json) :
    (analyze_docs docs).total_samples = docs.length := by
  rw [analyze_docs]
  have h : ∀ (l : List Json) (a : JsonAnalyzer),
      (l.foldl JsonAnalyzer.analyze a).total_samples
        = a.total_samples + l.length := by
    intro l
    induction l with
    | nil => intro a; simp
    | cons D rest ih =>
        intro a
        rw [List.foldl_cons, ih]
        show a.total_samples + 1 + rest.length = _
        simp [List.length_cons]
        omega
  rw [h]
  simp [JsonAnalyzer.new]

/-- occurrences weight: every record counts 1. -/
theorem record_occ (fs : FieldStats) (v : Json) :
    (fs.record v).occurrences = fs.occurrences + 1 := rfl

/-- null weight of a value. -/
def g_null (v : Json) : Nat :=
  match v with
  | .null => 1
  | _ => 0

theorem record_null (fs : FieldStats) (v : Json) :
    (fs.record v).null_count = fs.null_count + g_null v := by
  cases v <;> rfl

/-- histogram weight of a value for bucket `t`. -/
def g_ty (t : JsonType) (v : Json) : Nat :=
  if t = JsonType.from_value v then 1 else 0

theorem record_ty (t : JsonType) (fs : FieldStats) (v : Json) :
    (fs.record v).types t = fs.types t + g_ty t v := by
  show (if t = JsonType.from_value v then fs.types t + 1 else fs.types t) = _
  unfold g_ty
  by_cases h : t = JsonType.from_value v <;> simp [h]

theorem record_sum_types (fs : FieldStats) (v : Json) :
    sum_types (fs.record v) = sum_types fs + 1 := by
  have h : ∀ t, (fs.record v).types t = fs.types t + g_ty t v :=
    fun t => record_ty t fs v
  unfold sum_types all_types
  simp only [List.map_cons, List.map_nil, List.sum_cons, List.sum_nil, h]
  cases v <;> simp [g_ty, JsonType.from_value] <;> omega

end Pgdrift

namespace Pgdrift

/-- occurrences of an optional entry (0 if absent). -/
def occ_of (o : Option FieldStats) : Nat :=
  projO (fun fs => fs.occurrences) o

/-- null_count of an optional entry (0 if absent). -/
def null_of (o : Option FieldStats) : Nat :=
  projO (fun fs => fs.null_count) o

/-- histogram bucket `t` of an optional entry (0 if absent). -/
def ty_of (t : JsonType) (o : Option FieldStats) : Nat :=
  projO (fun fs => fs.types t) o

/-- total_samples of an optional entry (0 if absent). -/
def tsamp_of (o : Option FieldStats) : Nat :=
  projO (fun fs => fs.total_samples) o

/-- density of an optional entry (0 if absent). -/
def dens_of (o : Option FieldStats) : ℚ :=
  match o with
  | none => 0
  | some fs => fs.density

/-- number of stored examples of an optional entry (0 if absent). -/
def exlen_of (o : Option FieldStats) : Nat :=
  projO (fun fs => fs.examples.length) o

theorem record_values_inv (path : String) (depth : Nat) (vs : List Json) :
    (record_values path depth vs).null_count
        ≤ (record_values path depth vs).occurrences
      ∧ sum_types (record_values path depth vs)
        = (record_values path depth vs).occurrences := by
  unfold record_values
  have h : ∀ (l : List Json) (fs : FieldStats),
      fs.null_count ≤ fs.occurrences → sum_types fs = fs.occurrences →
      (l.foldl FieldStats.record fs).null_count
          ≤ (l.foldl FieldStats.record fs).occurrences
        ∧ sum_types (l.foldl FieldStats.record fs)
          = (l.foldl FieldStats.record fs).occurrences := by
    intro l
    induction l with
    | nil => intro fs h1 h2; exact ⟨h1, h2⟩
    | cons v rest ih =>
        intro fs h1 h2
        rw [List.foldl_cons]
        refine ih (fs.record v) ?_ ?_
        · rw [record_null, record_occ]
          have : g_null v ≤ 1 := by cases v <;> simp [g_null]
          omega
        · rw [record_sum_types, record_occ, h2]
  refine h vs (FieldStats.new path depth) ?_ ?_
  · simp [FieldStats.new]
  · simp [sum_types, FieldStats.new, all_types]

/-- C9: the FieldStats invariant holds after every record and survives
finalize.  finalize touches only total_samples and density. -/
theorem finalize_preserves_counts (fs : FieldStats) (total : Nat) :
    (fs.finalize total).null_count = fs.null_count
      ∧ (fs.finalize total).occurrences = fs.occurrences
      ∧ sum_types (fs.finalize total) = sum_types fs :=
  ⟨rfl, rfl, rfl⟩

end Pgdrift

namespace Pgdrift

/-- Analyzer-level entry invariant: a property preserved by record and true
of new holds of every entry analyze_docs produces. -/
theorem analyze_docs_entry_inv (P : FieldStats → Prop)
    (hrec : ∀ fs v, P fs → P (fs.record v))
    (hnew : ∀ q d, P (FieldStats.new q d)) (docs : List Json) (p : String) :
    ∀ fs, (analyze_docs docs).stats p = some fs → P fs := by
  unfold analyze_docs
  have h : ∀ (l : List Json) (a : JsonAnalyzer),
      (∀ fs, a.stats p = some fs → P fs) →
      ∀ fs, (l.foldl JsonAnalyzer.analyze a).stats p = some fs → P fs := by
    intro l
    induction l with
    | nil => intro a ha; exact ha
    | cons D rest ih =>
        intro a ha
        rw [List.foldl_cons]
        refine ih _ ?_
        intro fs hfs
        have hw : walk a.stats "" D 0 p
            = (walk_events "" D 0).foldl (apply_event p) (a.stats p) :=
          walk_apply a.stats "" D 0 p
        have : (walk_events "" D 0).foldl (apply_event p) (a.stats p)
            = some fs := by
          rw [← hw]; exact hfs
        exact foldl_apply_inv P hrec hnew p _ _ ha fs this
  intro fs hfs
  refine h docs JsonAnalyzer.new ?_ fs hfs
  intro fs0 h0
  simp [JsonAnalyzer.new] at h0

/-- An entry is absent after analyze_docs exactly when no event hit the
path. -/
theorem analyze_docs_stats_none (docs : List Json) (p : String) :
    (analyze_docs docs).stats p = none
      ↔ (docs.map (fun D => ev_cnt (fun _ => 1) p (walk_events "" D 0))).sum
          = 0 := by
  unfold analyze_docs
  have h : ∀ (l : List Json) (a : JsonAnalyzer),
      (l.foldl JsonAnalyzer.analyze a).stats p = none
        ↔ (a.stats p = none
            ∧ (l.map (fun D => ev_cnt (fun _ => 1) p (walk_events "" D 0))).sum
              = 0) := by
    intro l
    induction l with
    | nil => intro a; simp
    | cons D rest ih =>
        intro a
        rw [List.foldl_cons, ih]
        have hw : (JsonAnalyzer.analyze a D).stats p
            = (walk_events "" D 0).foldl (apply_event p) (a.stats p) :=
          walk_apply a.stats "" D 0 p
        rw [hw, foldl_apply_eq_none]
        simp only [List.map_cons, List.sum_cons]
        constructor
        · rintro ⟨⟨h1, h2⟩, h3⟩
          exact ⟨h1, by omega⟩
        · rintro ⟨h1, h2⟩
          exact ⟨⟨h1, by omega⟩, by omega⟩
  rw [h]
  simp [JsonAnalyzer.new]

theorem finalize_occ_of (a : JsonAnalyzer) (p : String) :
    occ_of (a.finalize p) = occ_of (a.stats p) := by
  unfold JsonAnalyzer.finalize occ_of projO
  cases a.stats p <;> rfl

theorem finalize_null_of (a : JsonAnalyzer) (p : String) :
    null_of (a.finalize p) = null_of (a.stats p) := by
  unfold JsonAnalyzer.finalize null_of projO
  cases a.stats p <;> rfl

theorem finalize_ty_of (t : JsonType) (a : JsonAnalyzer) (p : String) :
    ty_of t (a.finalize p) = ty_of t (a.stats p) := by
  unfold JsonAnalyzer.finalize ty_of projO
  cases a.stats p <;> rfl

/-- Density after finalize, in closed form: recorded occurrences times the
inverse of total_samples (0 when there are no samples or no entry), given
that every pre-finalize density is 0. -/
theorem dens_of_finalize (a : JsonAnalyzer) (p : String)
    (hpre : ∀ fs, a.stats p = some fs → fs.density = 0) :
    dens_of (a.finalize p)
      = (occ_of (a.stats p) : ℚ)
          * (if 0 < a.total_samples then ((a.total_samples : ℚ))⁻¹ else 0) := by
  unfold JsonAnalyzer.finalize dens_of occ_of projO
  cases h : a.stats p with
  | none => simp
  | some fs =>
      simp only [Option.map_some]
      show (if 0 < a.total_samples
          then (fs.occurrences : ℚ) / (a.total_samples : ℚ)
          else fs.density) = _
      by_cases ht : 0 < a.total_samples
      · simp [ht, div_eq_mul_inv]
      · simp [ht, hpre fs h]

theorem tsamp_of_finalize (a : JsonAnalyzer) (p : String) :
    tsamp_of (a.finalize p)
      = (match a.stats p with
          | none => 0
          | some _ => a.total_samples) := by
  unfold JsonAnalyzer.finalize tsamp_of projO
  cases a.stats p <;> simp [FieldStats.finalize]

end Pgdrift

namespace Pgdrift

/-- C9: for every path and every sequence of recorded values, after every
call to FieldStats::record the invariant null_count ≤ occurrences and
sum of types values = occurrences holds, and FieldStats::finalize preserves
it (every prefix of a value sequence is itself such a sequence, so the
statement over all `vs` covers the state after each record call). -/
theorem C9_fieldstats_invariant (path : String) (depth : Nat)
    (vs : List Json) (total : Nat) :
    (record_values path depth vs).null_count
        ≤ (record_values path depth vs).occurrences
      ∧ sum_types (record_values path depth vs)
        = (record_values path depth vs).occurrences
      ∧ ((record_values path depth vs).finalize total).null_count
        ≤ ((record_values path depth vs).finalize total).occurrences
      ∧ sum_types ((record_values path depth vs).finalize total)
        = ((record_values path depth vs).finalize total).occurrences := by
  obtain ⟨h1, h2⟩ := record_values_inv path depth vs
  exact ⟨h1, h2, h1, h2⟩

/-- C1 (amended): after JsonAnalyzer::finalize, density(P) equals
occurrences(P)/total_samples whenever total_samples > 0, density is never
negative, and density ≤ 1 whenever occurrences ≤ total_samples.  (The
unconditional upper bound of the original claim fails: a path inside an
array can be recorded more than once per document, see the
counterexample.) -/
theorem C1_density_after_finalize (docs : List Json) (p : String)
    (fs : FieldStats) (h : (analyze_docs docs).finalize p = some fs) :
    (0 < fs.total_samples
        → fs.density = (fs.occurrences : ℚ) / (fs.total_samples : ℚ))
      ∧ 0 ≤ fs.density
      ∧ (fs.occurrences ≤ fs.total_samples → fs.density ≤ 1) := by
  unfold JsonAnalyzer.finalize at h
  rcases Option.map_eq_some'.mp h with ⟨fs0, hfs0, hfin⟩
  have hpre : fs0.density = 0 := by
    refine analyze_docs_entry_inv (fun fs => fs.density = 0) ?_ ?_ docs p fs0 hfs0
    · intro fs1 v h1; exact h1
    · intro q d; rfl
  subst hfin
  set total := (analyze_docs docs).total_samples with htot
  have hocc : (fs0.finalize total).occurrences = fs0.occurrences := rfl
  have hts : (fs0.finalize total).total_samples = total := rfl
  have hd : (fs0.finalize total).density
      = if 0 < total then (fs0.occurrences : ℚ) / (total : ℚ)
        else fs0.density := rfl
  rw [hocc, hts, hd, hpre]
  by_cases ht : 0 < total
  · rw [if_pos ht]
    refine ⟨fun _ => rfl,
      div_nonneg (Nat.cast_nonneg _) (Nat.cast_nonneg _), ?_⟩
    intro hle
    have htQ : (0 : ℚ) < (total : ℚ) := by exact_mod_cast ht
    exact (div_le_one htQ).mpr (by exact_mod_cast hle)
  · rw [if_neg ht]
    exact ⟨fun habs => absurd habs ht, le_refl 0, fun _ => by norm_num⟩

/-- Input for the C1 witness: one flat document. -/
def c1_docs : List Json := [Json.obj (.cons "name" (.str "Alice") .nil)]

/-- The finalized entry at path "name" for the C1 witness. -/
def c1_fs : FieldStats :=
  match (analyze_docs c1_docs).finalize "name" with
  | some fs => fs
  | none => FieldStats.new "" 0

theorem C1_density_after_finalize_witness :
    (0 < c1_fs.total_samples
        → c1_fs.density = (c1_fs.occurrences : ℚ) / (c1_fs.total_samples : ℚ))
      ∧ 0 ≤ c1_fs.density
      ∧ (c1_fs.occurrences ≤ c1_fs.total_samples → c1_fs.density ≤ 1) :=
  C1_density_after_finalize c1_docs "name" c1_fs rfl

/-- One document whose array holds two objects: the path
"addresses[].city" is recorded twice in a single document. -/
def c1_arr_doc : Json :=
  .obj (.cons "addresses"
    (.arr (.cons (.obj (.cons "city" (.str "Brisbane") .nil))
      (.cons (.obj (.cons "city" (.str "Sydney") .nil)) .nil))) .nil)

/-- C1 counterexample: after analyzing that single document and finalizing,
density("addresses[].city") = 2/1 = 2 > 1, so density ∈ [0,1] fails. -/
theorem C1_density_counterexample :
    dens_of ((analyze_docs [c1_arr_doc]).finalize "addresses[].city") = 2
      ∧ ¬ dens_of ((analyze_docs [c1_arr_doc]).finalize "addresses[].city")
          ≤ 1 := by
  have hpre : ∀ fs,
      (analyze_docs [c1_arr_doc]).stats "addresses[].city" = some fs →
      fs.density = 0 := by
    refine analyze_docs_entry_inv (fun fs => fs.density = 0) ?_ ?_ _ _
    · intro fs1 v h1; exact h1
    · intro q d; rfl
  have hd := dens_of_finalize (analyze_docs [c1_arr_doc]) "addresses[].city" hpre
  have hocc : occ_of ((analyze_docs [c1_arr_doc]).stats "addresses[].city") = 2 := by
    decide
  have htot : (analyze_docs [c1_arr_doc]).total_samples = 1 := by
    rw [analyze_docs_total]
    rfl
  rw [hocc, htot] at hd
  norm_num at hd
  rw [hd]
  norm_num

end Pgdrift

namespace Pgdrift

theorem stored_examples_bounded (docs : List Json) (p : String) :
    exlen_of ((analyze_docs docs).stats p) ≤ 10 := by
  cases hs : (analyze_docs docs).stats p with
  | none => simp [exlen_of, projO]
  | some fs =>
      show fs.examples.length ≤ 10
      refine analyze_docs_entry_inv (fun fs => fs.examples.length ≤ 10)
        ?_ ?_ docs p fs hs
      · intro fs1 v h1
        show (if fs1.examples.length < 10 then fs1.examples ++ [v]
            else fs1.examples).length ≤ 10
        split
        · simp; omega
        · exact h1
      · intro q d
        simp [FieldStats.new]

/-- C7: analyzing the same document twice doubles occurrences, null_count
and every per-type histogram count of each path, with the examples list
capped at 10; and the final occurrences, null_count, types, total_samples
and density after finalize are invariant under permutation of the document
order. -/
theorem C7_doubling_and_order_invariance :
    (∀ (D : Json) (p : String),
        occ_of ((analyze_docs [D, D]).stats p)
            = 2 * occ_of ((analyze_docs [D]).stats p)
          ∧ null_of ((analyze_docs [D, D]).stats p)
            = 2 * null_of ((analyze_docs [D]).stats p)
          ∧ (∀ t, ty_of t ((analyze_docs [D, D]).stats p)
            = 2 * ty_of t ((analyze_docs [D]).stats p))
          ∧ exlen_of ((analyze_docs [D, D]).stats p) ≤ 10)
      ∧ (∀ (docs1 docs2 : List Json), docs1.Perm docs2 → ∀ (p : String),
          (analyze_docs docs1).total_samples
              = (analyze_docs docs2).total_samples
            ∧ occ_of ((analyze_docs docs1).finalize p)
              = occ_of ((analyze_docs docs2).finalize p)
            ∧ null_of ((analyze_docs docs1).finalize p)
              = null_of ((analyze_docs docs2).finalize p)
            ∧ (∀ t, ty_of t ((analyze_docs docs1).finalize p)
              = ty_of t ((analyze_docs docs2).finalize p))
            ∧ tsamp_of ((analyze_docs docs1).finalize p)
              = tsamp_of ((analyze_docs docs2).finalize p)
            ∧ dens_of ((analyze_docs docs1).finalize p)
              = dens_of ((analyze_docs docs2).finalize p)) := by
  have hocc_cnt : ∀ docs p, occ_of ((analyze_docs docs).stats p)
      = (docs.map (fun D => ev_cnt (fun _ => 1) p (walk_events "" D 0))).sum :=
    fun docs p => analyze_docs_cnt (fun fs => fs.occurrences) (fun _ => 1)
      (fun fs v => rfl) (fun q d => rfl) docs p
  have hnull_cnt : ∀ docs p, null_of ((analyze_docs docs).stats p)
      = (docs.map (fun D => ev_cnt g_null p (walk_events "" D 0))).sum :=
    fun docs p => analyze_docs_cnt (fun fs => fs.null_count) g_null
      record_null (fun q d => rfl) docs p
  have hty_cnt : ∀ t docs p, ty_of t ((analyze_docs docs).stats p)
      = (docs.map (fun D => ev_cnt (g_ty t) p (walk_events "" D 0))).sum :=
    fun t docs p => analyze_docs_cnt (fun fs => fs.types t) (g_ty t)
      (record_ty t) (fun q d => rfl) docs p
  have hpre : ∀ docs p fs, (analyze_docs docs).stats p = some fs →
      fs.density = 0 := by
    intro docs p
    refine analyze_docs_entry_inv (fun fs => fs.density = 0) ?_ ?_ docs p
    · intro fs1 v h1; exact h1
    · intro q d; rfl
  constructor
  · intro D p
    refine ⟨?_, ?_, ?_, stored_examples_bounded [D, D] p⟩
    · rw [hocc_cnt, hocc_cnt]; simp; omega
    · rw [hnull_cnt, hnull_cnt]; simp; omega
    · intro t
      rw [hty_cnt, hty_cnt]; simp; omega
  · intro docs1 docs2 hperm p
    have hlen : docs1.length = docs2.length := hperm.length_eq
    have htot : (analyze_docs docs1).total_samples
        = (analyze_docs docs2).total_samples := by
      rw [analyze_docs_total, analyze_docs_total, hlen]
    have hsum : ∀ (f : Json → Nat),
        (docs1.map f).sum = (docs2.map f).sum :=
      fun f => (hperm.map f).sum_eq
    have hocc : occ_of ((analyze_docs docs1).stats p)
        = occ_of ((analyze_docs docs2).stats p) := by
      rw [hocc_cnt, hocc_cnt]; exact hsum _
    have hnone : ((analyze_docs docs1).stats p = none)
        ↔ ((analyze_docs docs2).stats p = none) := by
      rw [analyze_docs_stats_none, analyze_docs_stats_none, hsum _]
    refine ⟨htot, ?_, ?_, ?_, ?_, ?_⟩
    · rw [finalize_occ_of, finalize_occ_of]; exact hocc
    · rw [finalize_null_of, finalize_null_of, hnull_cnt, hnull_cnt]
      exact hsum _
    · intro t
      rw [finalize_ty_of, finalize_ty_of, hty_cnt, hty_cnt]
      exact hsum _
    · rw [tsamp_of_finalize, tsamp_of_finalize]
      cases h1 : (analyze_docs docs1).stats p with
      | none =>
          cases h2 : (analyze_docs docs2).stats p with
          | none => rfl
          | some fs2 =>
              exact absurd (hnone.mp h1) (by simp [h2])
      | some fs1 =>
          cases h2 : (analyze_docs docs2).stats p with
          | none => exact absurd (hnone.mpr h2) (by simp [h1])
          | some fs2 => simpa using htot
    · rw [dens_of_finalize _ _ (hpre docs1 p), dens_of_finalize _ _ (hpre docs2 p),
        hocc, htot]

/-- Two distinct documents for the C7 witness. -/
def c7_d1 : Json := .obj (.cons "a" (.num 1) .nil)

/-- Second document for the C7 witness. -/
def c7_d2 : Json := .obj (.cons "b" (.str "x") .nil)

theorem C7_doubling_and_order_invariance_witness :
    occ_of ((analyze_docs [c7_d1, c7_d2]).finalize "a")
      = occ_of ((analyze_docs [c7_d2, c7_d1]).finalize "a") :=
  ((C7_doubling_and_order_invariance.2 [c7_d1, c7_d2] [c7_d2, c7_d1]
    (List.Perm.swap c7_d2 c7_d1 [])) "a").2.1

end Pgdrift

namespace Pgdrift

/-- TypeDistribution (drift.rs lines 62-67). -/
structure TypeDistribution where
  json_type : JsonType
  count : Nat
  percentage : ℚ

/-- EvolutionPattern (drift.rs lines 70-78). -/
inductive EvolutionPattern where
  | VersionMarker (marker_path : String)
  | DeprecatedNaming (old_path : String) (new_path : String)
  | MutuallyExclusive (paths : List String)

/-- DriftIssue (drift.rs lines 25-59).  The TypeInconsistency `types` map is
embedded as a function with `none` for absent buckets.  The field name
`occurunces` of GhostKey is the source's own spelling. -/
inductive DriftIssue where
  | TypeInconsistency (path : String)
      (types : JsonType → Option TypeDistribution) (minority_percentage : ℚ)
  | GhostKey (path : String) (density : ℚ) (occurunces : Nat)
      (total_samples : Nat)
  | SparseField (path : String) (density : ℚ) (occurrences : Nat)
      (total_samples : Nat)
  | MissingKey (path : String) (density : ℚ) (expected_occurrences : Nat)
      (actual_occurrences : Nat)
  | SchemaEvolution (path : String) (pattern : EvolutionPattern)

/-- DriftConfig (drift.rs lines 212-224). -/
structure DriftConfig where
  type_inconsistency_threshold : ℚ
  ghost_key_threshold : ℚ
  sparse_field_threshold : ℚ
  missing_key_threshold : ℚ
  detect_schema_evolution : Bool

/-- DriftConfig::default (drift.rs lines 226-236). -/
def DriftConfig.default_config : DriftConfig :=
  { type_inconsistency_threshold := 5
    ghost_key_threshold := 1/10
    sparse_field_threshold := 8/10
    missing_key_threshold := 95/100
    detect_schema_evolution := true }

/-- `stats.types.len()`: the number of distinct types present (count > 0). -/
def distinct_type_count (fs : FieldStats) : Nat :=
  (all_types.filter (fun t => 0 < fs.types t)).length

/-- `stats.types.values().sum()` as used by detect_type_inconsistency. -/
def total_typed (fs : FieldStats) : Nat :=
  (all_types.map fs.types).sum

/-- `stats.types.values().max().copied().unwrap_or(0)` — with the histogram
as a total function, the maximum over all six buckets agrees with the
maximum over present entries whenever one exists, and is 0 otherwise. -/
def max_count (fs : FieldStats) : Nat :=
  (all_types.map fs.types).foldr max 0

/-- `stats.types.values().filter(|&&c| c != max_count).sum()` — absent
buckets contribute 0 to the sum either way. -/
def minority_count (fs : FieldStats) : Nat :=
  ((all_types.map fs.types).filter (fun c => c ≠ max_count fs)).sum

/-- The type_distributions map built by detect_type_inconsistency
(drift.rs lines 282-293): one entry per present type. -/
def type_distributions (fs : FieldStats) : JsonType → Option TypeDistribution :=
  fun t =>
    if 0 < fs.types t then
      some { json_type := t
             count := fs.types t
             percentage := (fs.types t : ℚ) / (total_typed fs : ℚ) * 100 }
    else none

/-- The minority percentage computed by detect_type_inconsistency
(drift.rs line 299). -/
def minority_percentage (fs : FieldStats) : ℚ :=
  (minority_count fs : ℚ) / (total_typed fs : ℚ) * 100

/-- detect_type_inconsistency (drift.rs lines 270-311). -/
def detect_type_inconsistency (stats : FieldStats) (config : DriftConfig) :
    Option DriftIssue :=
  if distinct_type_count stats < 2 then none
  else if total_typed stats = 0 then none
  else if config.type_inconsistency_threshold ≤ minority_percentage stats then
    some (.TypeInconsistency stats.path (type_distributions stats)
      (minority_percentage stats))
  else none

/-- Modelled from the spec: "Minority percentage = (sum of all type counts
except the single largest bucket) / (sum of all type counts) × 100" — the
largest bucket is removed once, so types tied with it still count as
minority.  For comparison with the source's `minority_percentage`. -/
def spec_minority_percentage (fs : FieldStats) : ℚ :=
  ((total_typed fs : ℚ) - (max_count fs : ℚ)) / (total_typed fs : ℚ) * 100

/-- detect_ghost_key (drift.rs lines 314-325). -/
def detect_ghost_key (stats : FieldStats) (config : DriftConfig) :
    Option DriftIssue :=
  if stats.density ≤ config.ghost_key_threshold ∧ 0 < stats.density then
    some (.GhostKey stats.path stats.density stats.occurrences
      stats.total_samples)
  else none

/-- detect_sparse_field (drift.rs lines 328-341). -/
def detect_sparse_field (stats : FieldStats) (config : DriftConfig) :
    Option DriftIssue :=
  if config.ghost_key_threshold < stats.density
      ∧ stats.density ≤ config.sparse_field_threshold then
    some (.SparseField stats.path stats.density stats.occurrences
      stats.total_samples)
  else none

/-- detect_missing_key (drift.rs lines 344-358). -/
def detect_missing_key (stats : FieldStats) (config : DriftConfig) :
    Option DriftIssue :=
  if config.sparse_field_threshold < stats.density
      ∧ stats.density < config.missing_key_threshold then
    some (.MissingKey stats.path stats.density stats.total_samples
      stats.occurrences)
  else none

end Pgdrift

namespace Pgdrift

theorem total_typed_pos_of_distinct (fs : FieldStats)
    (h2 : 2 ≤ distinct_type_count fs) : total_typed fs ≠ 0 := by
  have hne : (all_types.filter (fun t => 0 < fs.types t)) ≠ [] := by
    intro hnil
    unfold distinct_type_count at h2
    rw [hnil] at h2
    simp at h2
  obtain ⟨t, ht⟩ := List.exists_mem_of_ne_nil _ hne
  have hmem := List.mem_filter.mp ht
  have hpos : 0 < fs.types t := by
    have := hmem.2
    simpa using this
  have hle : fs.types t ≤ total_typed fs := by
    unfold total_typed
    exact List.single_le_sum (fun x _ => Nat.zero_le x) _
      (List.mem_map_of_mem fs.types hmem.1)
  omega

/-- C2 (amended): for a field with at least 2 distinct observed types,
detect_type_inconsistency fires if and only if
minority_percentage ≥ type_inconsistency_threshold, where
minority_percentage = (sum of all type counts that differ from the maximum
count) / (sum of all type counts) × 100 — when two or more types are tied
for the largest count, ALL tied buckets are excluded from the minority, not
just a single largest bucket — and the emitted issue carries exactly that
minority_percentage. -/
theorem C2_type_inconsistency_fires_iff (fs : FieldStats) (cfg : DriftConfig)
    (h2 : 2 ≤ distinct_type_count fs) :
    (detect_type_inconsistency fs cfg
        = some (DriftIssue.TypeInconsistency fs.path (type_distributions fs)
            (minority_percentage fs))
      ↔ cfg.type_inconsistency_threshold ≤ minority_percentage fs)
    ∧ (detect_type_inconsistency fs cfg = none
      ↔ minority_percentage fs < cfg.type_inconsistency_threshold) := by
  have htot := total_typed_pos_of_distinct fs h2
  have hne : ¬ distinct_type_count fs < 2 := by omega
  by_cases hth : cfg.type_inconsistency_threshold ≤ minority_percentage fs
  · have hdet : detect_type_inconsistency fs cfg
        = some (DriftIssue.TypeInconsistency fs.path (type_distributions fs)
            (minority_percentage fs)) := by
      unfold detect_type_inconsistency
      rw [if_neg hne, if_neg htot, if_pos hth]
    refine ⟨⟨fun _ => hth, fun _ => hdet⟩, ?_, ?_⟩
    · intro hcontr
      rw [hdet] at hcontr
      simp at hcontr
    · intro hlt
      exact absurd hth (not_le.mpr hlt)
  · have hdet : detect_type_inconsistency fs cfg = none := by
      unfold detect_type_inconsistency
      rw [if_neg hne, if_neg htot, if_neg hth]
    refine ⟨⟨fun heq => ?_, fun hle => absurd hle hth⟩,
      fun _ => not_le.mp hth, fun _ => hdet⟩
    rw [hdet] at heq
    simp at heq

/-- Witnessing field for C2: 92 strings against 8 numbers. -/
def c2_fs_witness : FieldStats :=
  { path := "user.age"
    occurrences := 100
    total_samples := 100
    density := 1
    null_count := 0
    types := fun t =>
      match t with
      | .String => 92
      | .Number => 8
      | _ => 0
    examples := []
    depth := 2 }

theorem C2_type_inconsistency_fires_iff_witness :
    detect_type_inconsistency c2_fs_witness DriftConfig.default_config
      = some (DriftIssue.TypeInconsistency "user.age"
          (type_distributions c2_fs_witness)
          (minority_percentage c2_fs_witness)) := by
  have h2 : 2 ≤ distinct_type_count c2_fs_witness := by decide
  have hmc : minority_count c2_fs_witness = 8 := by decide
  have htt : total_typed c2_fs_witness = 100 := by decide
  have hmp : minority_percentage c2_fs_witness = 8 := by
    rw [minority_percentage, hmc, htt]
    norm_num
  exact ((C2_type_inconsistency_fires_iff c2_fs_witness
      DriftConfig.default_config h2).1).mpr
    (by rw [hmp]; norm_num [DriftConfig.default_config])

/-- A field whose two observed types are tied: 5 strings and 5 numbers. -/
def c2_fs_tie : FieldStats :=
  { path := "x"
    occurrences := 10
    total_samples := 10
    density := 1
    null_count := 0
    types := fun t =>
      match t with
      | .String => 5
      | .Number => 5
      | _ => 0
    examples := []
    depth := 1 }

/-- C2 counterexample: with two types tied at the maximum count the claim's
minority percentage (everything except one largest bucket) is 50%, at or
above the default threshold 5.0, yet detect_type_inconsistency returns
none — the code excludes every bucket tied with the maximum. -/
theorem C2_tie_counterexample :
    detect_type_inconsistency c2_fs_tie DriftConfig.default_config = none
      ∧ spec_minority_percentage c2_fs_tie = 50
      ∧ DriftConfig.default_config.type_inconsistency_threshold ≤ 50
      ∧ 2 ≤ distinct_type_count c2_fs_tie := by
  have hmc : minority_count c2_fs_tie = 0 := by decide
  have htt : total_typed c2_fs_tie = 10 := by decide
  have hma : max_count c2_fs_tie = 5 := by decide
  have hmp : minority_percentage c2_fs_tie = 0 := by
    rw [minority_percentage, hmc, htt]
    norm_num
  refine ⟨?_, ?_, ?_, by decide⟩
  · have hth : ¬ (DriftConfig.default_config.type_inconsistency_threshold
        ≤ minority_percentage c2_fs_tie) := by
      rw [hmp]
      norm_num [DriftConfig.default_config]
    unfold detect_type_inconsistency
    rw [if_neg (by decide : ¬ distinct_type_count c2_fs_tie < 2),
      if_neg (by decide : ¬ total_typed c2_fs_tie = 0), if_neg hth]
  · rw [spec_minority_percentage, hma, htt]
    norm_num
  · norm_num [DriftConfig.default_config]

end Pgdrift

namespace Pgdrift

theorem ghost_isSome_iff (fs : FieldStats) (cfg : DriftConfig) :
    (detect_ghost_key fs cfg).isSome = true
      ↔ (fs.density ≤ cfg.ghost_key_threshold ∧ 0 < fs.density) := by
  unfold detect_ghost_key
  split <;> simp_all

theorem sparse_isSome_iff (fs : FieldStats) (cfg : DriftConfig) :
    (detect_sparse_field fs cfg).isSome = true
      ↔ (cfg.ghost_key_threshold < fs.density
          ∧ fs.density ≤ cfg.sparse_field_threshold) := by
  unfold detect_sparse_field
  split <;> simp_all

theorem missing_isSome_iff (fs : FieldStats) (cfg : DriftConfig) :
    (detect_missing_key fs cfg).isSome = true
      ↔ (cfg.sparse_field_threshold < fs.density
          ∧ fs.density < cfg.missing_key_threshold) := by
  unfold detect_missing_key
  split <;> simp_all

theorem ghost_eq_none_iff (fs : FieldStats) (cfg : DriftConfig) :
    detect_ghost_key fs cfg = none
      ↔ ¬ (fs.density ≤ cfg.ghost_key_threshold ∧ 0 < fs.density) := by
  unfold detect_ghost_key
  split <;> simp_all

theorem sparse_eq_none_iff (fs : FieldStats) (cfg : DriftConfig) :
    detect_sparse_field fs cfg = none
      ↔ ¬ (cfg.ghost_key_threshold < fs.density
          ∧ fs.density ≤ cfg.sparse_field_threshold) := by
  unfold detect_sparse_field
  split <;> simp_all

theorem missing_eq_none_iff (fs : FieldStats) (cfg : DriftConfig) :
    detect_missing_key fs cfg = none
      ↔ ¬ (cfg.sparse_field_threshold < fs.density
          ∧ fs.density < cfg.missing_key_threshold) := by
  unfold detect_missing_key
  split <;> simp_all

/-- C5 (amended): for every config with 0 ≤ ghost_key_threshold ≤
sparse_field_threshold < missing_key_threshold, at most one of ghost /
sparse / missing fires; on (0, ghost] ghost fires, on (ghost, sparse]
sparse fires, on (sparse, missing) missing fires, so exactly one fires for
every density strictly between 0 and the missing threshold; and none fires
at density 0 or at and above the missing threshold.  (The original claim,
which allowed ghost < 0 or sparse = missing, fails: see the
counterexample.) -/
theorem C5_density_bands (fs : FieldStats) (cfg : DriftConfig)
    (h0 : 0 ≤ cfg.ghost_key_threshold)
    (h1 : cfg.ghost_key_threshold ≤ cfg.sparse_field_threshold)
    (h2 : cfg.sparse_field_threshold < cfg.missing_key_threshold) :
    (((detect_ghost_key fs cfg).isSome = true
        → detect_sparse_field fs cfg = none ∧ detect_missing_key fs cfg = none)
      ∧ ((detect_sparse_field fs cfg).isSome = true
        → detect_ghost_key fs cfg = none ∧ detect_missing_key fs cfg = none)
      ∧ ((detect_missing_key fs cfg).isSome = true
        → detect_ghost_key fs cfg = none ∧ detect_sparse_field fs cfg = none))
    ∧ (0 < fs.density → fs.density < cfg.missing_key_threshold →
        ((detect_ghost_key fs cfg).isSome = true
          ∨ (detect_sparse_field fs cfg).isSome = true
          ∨ (detect_missing_key fs cfg).isSome = true))
    ∧ (0 < fs.density → fs.density ≤ cfg.ghost_key_threshold →
        (detect_ghost_key fs cfg).isSome = true)
    ∧ (cfg.ghost_key_threshold < fs.density
        → fs.density ≤ cfg.sparse_field_threshold →
        (detect_sparse_field fs cfg).isSome = true)
    ∧ (cfg.sparse_field_threshold < fs.density
        → fs.density < cfg.missing_key_threshold →
        (detect_missing_key fs cfg).isSome = true)
    ∧ (fs.density = 0 →
        detect_ghost_key fs cfg = none ∧ detect_sparse_field fs cfg = none
          ∧ detect_missing_key fs cfg = none)
    ∧ (cfg.missing_key_threshold ≤ fs.density →
        detect_ghost_key fs cfg = none ∧ detect_sparse_field fs cfg = none
          ∧ detect_missing_key fs cfg = none) := by
  simp only [ghost_isSome_iff, sparse_isSome_iff, missing_isSome_iff,
    ghost_eq_none_iff, sparse_eq_none_iff, missing_eq_none_iff]
  refine ⟨⟨?_, ?_, ?_⟩, ?_, ?_, ?_, ?_, ?_, ?_⟩
  · rintro ⟨ha, hb⟩
    constructor
    · rintro ⟨hc, -⟩; linarith
    · rintro ⟨hc, -⟩; linarith
  · rintro ⟨ha, hb⟩
    constructor
    · rintro ⟨hc, -⟩; linarith
    · rintro ⟨hc, -⟩; linarith
  · rintro ⟨ha, hb⟩
    constructor
    · rintro ⟨hc, -⟩; linarith
    · rintro ⟨-, hd⟩; linarith
  · intro hpos hlt
    rcases le_or_lt fs.density cfg.ghost_key_threshold with hg | hg
    · exact Or.inl ⟨hg, hpos⟩
    rcases le_or_lt fs.density cfg.sparse_field_threshold with hs | hs
    · exact Or.inr (Or.inl ⟨hg, hs⟩)
    · exact Or.inr (Or.inr ⟨hs, hlt⟩)
  · intro hpos hle
    exact ⟨hle, hpos⟩
  · intro ha hb
    exact ⟨ha, hb⟩
  · intro ha hb
    exact ⟨ha, hb⟩
  · intro hz
    refine ⟨?_, ?_, ?_⟩
    · rintro ⟨-, hc⟩; linarith
    · rintro ⟨hc, -⟩; linarith
    · rintro ⟨hc, -⟩; linarith
  · intro hge
    refine ⟨?_, ?_, ?_⟩
    · rintro ⟨hc, -⟩; linarith
    · rintro ⟨-, hd⟩; linarith
    · rintro ⟨-, hd⟩; linarith

/-- A field at density exactly 1/2 (500 of 1000 samples). -/
def c5_fs_half : FieldStats :=
  { path := "f"
    occurrences := 500
    total_samples := 1000
    density := 1/2
    null_count := 0
    types := fun t =>
      match t with
      | .String => 500
      | _ => 0
    examples := []
    depth := 1 }

/-- A field at density 0 together with 0 occurrences. -/
def c5_fs_zero : FieldStats :=
  { path := "g"
    occurrences := 0
    total_samples := 1000
    density := 0
    null_count := 0
    types := fun _ => 0
    examples := []
    depth := 1 }

/-- A config whose three density thresholds all equal 1/2. -/
def c5_cfg_eq : DriftConfig :=
  { type_inconsistency_threshold := 5
    ghost_key_threshold := 1/2
    sparse_field_threshold := 1/2
    missing_key_threshold := 1/2
    detect_schema_evolution := false }

/-- A config with a negative ghost threshold, still an increasing chain. -/
def c5_cfg_neg : DriftConfig :=
  { type_inconsistency_threshold := 5
    ghost_key_threshold := -1
    sparse_field_threshold := 0
    missing_key_threshold := 1
    detect_schema_evolution := false }

/-- C5 counterexample to the claim as stated (only requiring
ghost ≤ sparse ≤ missing): with all three thresholds equal to 1/2, a field
of density 1/2 is at and above missing_key_threshold yet GhostKey fires;
and with ghost = -1 ≤ sparse = 0 ≤ missing = 1, SparseField fires at
density exactly 0. -/
theorem C5_density_bands_counterexample :
    (c5_cfg_eq.ghost_key_threshold ≤ c5_cfg_eq.sparse_field_threshold
      ∧ c5_cfg_eq.sparse_field_threshold ≤ c5_cfg_eq.missing_key_threshold
      ∧ c5_cfg_eq.missing_key_threshold ≤ c5_fs_half.density
      ∧ (detect_ghost_key c5_fs_half c5_cfg_eq).isSome = true)
    ∧ (c5_cfg_neg.ghost_key_threshold ≤ c5_cfg_neg.sparse_field_threshold
      ∧ c5_cfg_neg.sparse_field_threshold ≤ c5_cfg_neg.missing_key_threshold
      ∧ c5_fs_zero.density = 0
      ∧ (detect_sparse_field c5_fs_zero c5_cfg_neg).isSome = true) := by
  refine ⟨⟨?_, ?_, ?_, ?_⟩, ⟨?_, ?_, ?_, ?_⟩⟩
  · norm_num [c5_cfg_eq]
  · norm_num [c5_cfg_eq]
  · norm_num [c5_cfg_eq, c5_fs_half]
  · rw [ghost_isSome_iff]
    norm_num [c5_cfg_eq, c5_fs_half]
  · norm_num [c5_cfg_neg]
  · norm_num [c5_cfg_neg]
  · norm_num [c5_fs_zero]
  · rw [sparse_isSome_iff]
    norm_num [c5_cfg_neg, c5_fs_zero]

theorem C5_density_bands_witness :
    (detect_sparse_field c5_fs_half DriftConfig.default_config).isSome
      = true :=
  (C5_density_bands c5_fs_half DriftConfig.default_config
    (by norm_num [DriftConfig.default_config])
    (by norm_num [DriftConfig.default_config])
    (by norm_num [DriftConfig.default_config])).2.2.2.1
    (by norm_num [DriftConfig.default_config, c5_fs_half])
    (by norm_num [DriftConfig.default_config, c5_fs_half])

end Pgdrift

namespace Pgdrift

/-- SamplingStrategy (sampler.rs lines 7-24).  The f32 percentage is
embedded as ℚ. -/
inductive SamplingStrategy where
  | Full
  | Random (limit : Nat)
  | ReservoirPK (sample_size : Nat) (pk : String)
  | TableSample (percentage : ℚ) (limit : Nat)
deriving DecidableEq

/-- Rust's `f32::clamp(lo, hi)`: lo when below, hi when above, x
otherwise. -/
def rust_clamp (x lo hi : ℚ) : ℚ :=
  if x < lo then lo else if hi < x then hi else x

/-- SamplingStrategy::auto_select (sampler.rs lines 33-80) after the row
count has been resolved (positive, from `estimated_rows` or
`get_row_count`) and with `pk_result` standing for the outcome of
`find_primary_key` (`some pk` for Ok, `none` for Err: the code degrades to
Random rather than fail). -/
def auto_select (row_count : Int) (sample_size : Nat)
    (pk_result : Option String) : SamplingStrategy :=
  if row_count.toNat ≤ sample_size then .Full
  else if row_count < 100000 then .Random sample_size
  else if row_count < 10000000 then
    match pk_result with
    | some pk => .ReservoirPK sample_size pk
    | none => .Random sample_size
  else
    .TableSample
      (rust_clamp ((sample_size : ℚ) / (row_count : ℚ) * 100) (1/10) 100)
      sample_size

/-- quote_identifier (sampler.rs lines 295-297). -/
def quote_identifier (identifier : String) : String :=
  "\"" ++ identifier.replace "\"" "\"\"" ++ "\""

/-- Decimal rendering of the embedded ℚ percentage (stands for Rust's f32
Display; the claims never depend on this text). -/
def fmtQ (q : ℚ) : String :=
  if q.den = 1 then toString q.num
  else toString q.num ++ "/" ++ toString q.den

/-- SamplingStrategy::build_query (sampler.rs lines 92-144). -/
def build_query (strategy : SamplingStrategy)
    (schema table column : String) : String :=
  let schema_quoted := quote_identifier schema
  let table_quoted := quote_identifier table
  let column_quoted := quote_identifier column
  match strategy with
  | .Full =>
      "SELECT " ++ column_quoted ++ " FROM " ++ schema_quoted ++ "."
        ++ table_quoted ++ " WHERE " ++ column_quoted ++ " IS NOT NULL"
  | .Random limit =>
      "SELECT " ++ column_quoted ++ " FROM " ++ schema_quoted ++ "."
        ++ table_quoted ++ " WHERE " ++ column_quoted ++ " IS NOT NULL"
        ++ " ORDER BY random() LIMIT " ++ toString limit
  | .ReservoirPK sample_size pk =>
      let pk_quoted := quote_identifier pk
      "WITH random_ids AS (\n                        SELECT floor(random() * (SELECT MAX("
        ++ pk_quoted ++ ") FROM " ++ schema_quoted ++ "." ++ table_quoted
        ++ "))::bigint AS rand_id\n                        FROM generate_series(1, "
        ++ toString sample_size
        ++ " * 2)\n                    )\n                    SELECT t."
        ++ column_quoted ++ "\n                    FROM " ++ schema_quoted
        ++ "." ++ table_quoted
        ++ " t\n                    INNER JOIN random_ids r ON t."
        ++ pk_quoted ++ " = r.rand_id\n                    WHERE t."
        ++ column_quoted ++ " IS NOT NULL"
        ++ "\n                    LIMIT " ++ toString sample_size
  | .TableSample percentage limit =>
      "SELECT " ++ column_quoted ++ " FROM " ++ schema_quoted ++ "."
        ++ table_quoted ++ " TABLESAMPLE BERNOULLI(" ++ fmtQ percentage
        ++ ") WHERE " ++ column_quoted ++ " IS NOT NULL"
        ++ " LIMIT " ++ toString limit

/-- Sampler (sampler.rs lines 147-151). -/
structure Sampler where
  strategy : SamplingStrategy
  production_mode : Bool
  show_progress : Bool

/-- The condition under which Sampler::sample prints its production-mode
warning (sampler.rs lines 207-216). -/
def Sampler.sample_warns (self : Sampler) : Bool :=
  self.production_mode &&
    (match self.strategy with
     | .TableSample percentage _ => decide ((1 : ℚ) < percentage)
     | _ => false)

/-- The strategy Sampler::sample actually uses to build and run its query:
`self.strategy`, unchanged — the warning branch carries the source comment
"In a real implementation, we'd adjust the strategy here" and performs no
adjustment (sampler.rs lines 215-218). -/
def Sampler.effective_strategy (self : Sampler) : SamplingStrategy :=
  self.strategy

/-- The query Sampler::sample builds and executes (sampler.rs line 218). -/
def Sampler.sample_query (self : Sampler)
    (schema table column : String) : String :=
  build_query self.effective_strategy schema table column

end Pgdrift

namespace Pgdrift

/-- C3: for every positive resolved row count n and sample size s,
auto_select returns Full when s ≥ n; Random for n < 100,000; for
100,000 ≤ n < 10,000,000 ReservoirPK when a single-column primary key was
found and Random (not an error) when none exists; and for n ≥ 10,000,000
TableSample with percentage (s/n × 100) clamped to [0.1, 100.0] and
limit s. -/
theorem C3_auto_select_branches (n : Int) (s : Nat) (pk : Option String)
    (hn : 0 < n) :
    (n.toNat ≤ s → auto_select n s pk = .Full)
      ∧ (s < n.toNat → n < 100000 → auto_select n s pk = .Random s)
      ∧ (s < n.toNat → 100000 ≤ n → n < 10000000 →
          ((∀ k, pk = some k → auto_select n s pk = .ReservoirPK s k)
            ∧ (pk = none → auto_select n s pk = .Random s)))
      ∧ (s < n.toNat → 10000000 ≤ n →
          auto_select n s pk
            = .TableSample
                (rust_clamp ((s : ℚ) / (n : ℚ) * 100) (1/10) 100) s) := by
  unfold auto_select
  refine ⟨?_, ?_, ?_, ?_⟩
  · intro h
    rw [if_pos h]
  · intro hs hlt
    rw [if_neg (by omega), if_pos hlt]
  · intro hs hge hlt
    constructor
    · intro k hk
      subst hk
      rw [if_neg (by omega), if_neg (by omega), if_pos hlt]
    · intro hk
      subst hk
      rw [if_neg (by omega), if_neg (by omega), if_pos hlt]
  · intro hs hge
    rw [if_neg (by omega), if_neg (by omega), if_neg (by omega)]

theorem C3_auto_select_branches_witness :
    auto_select 50 5000 none = SamplingStrategy.Full
      ∧ auto_select 5000000 1000 none = SamplingStrategy.Random 1000 :=
  ⟨(C3_auto_select_branches 50 5000 none (by decide)).1 (by decide),
   ((C3_auto_select_branches 5000000 1000 none (by decide)).2.2.1
      (by decide) (by decide) (by decide)).2 rfl⟩

/-- C4 at the failing input: in production mode with TableSample at 50%,
Sampler::sample warns, but the strategy it builds the query from is the
unchanged TableSample 50 — the effective sampling percentage stays 50%,
far above the claimed 1% cap (the source comment itself says "In a real
implementation, we'd adjust the strategy here"). -/
theorem C4_production_cap_not_enforced :
    Sampler.sample_warns
        { strategy := .TableSample 50 1000
          production_mode := true
          show_progress := true } = true
      ∧ Sampler.effective_strategy
          { strategy := .TableSample 50 1000
            production_mode := true
            show_progress := true } = .TableSample 50 1000
      ∧ Sampler.sample_query
          { strategy := .TableSample 50 1000
            production_mode := true
            show_progress := true } "public" "users" "metadata"
        = build_query (.TableSample 50 1000) "public" "users" "metadata"
      ∧ (1 : ℚ) < 50 := by
  refine ⟨?_, rfl, rfl, by norm_num⟩
  simp only [Sampler.sample_warns, Bool.true_and, decide_eq_true_eq]
  norm_num

/-- C6: every query build_query produces filters out rows whose target
column is null: the text `<quoted column> IS NOT NULL` occurs in it, for
every strategy and all identifiers. -/
theorem C6_queries_filter_null (strategy : SamplingStrategy)
    (schema table column : String) :
    ∃ pre post,
      build_query strategy schema table column
        = pre ++ (quote_identifier column ++ " IS NOT NULL") ++ post := by
  cases strategy with
  | Full =>
      refine ⟨"SELECT " ++ quote_identifier column ++ " FROM "
        ++ quote_identifier schema ++ "." ++ quote_identifier table
        ++ " WHERE ", "", ?_⟩
      simp [build_query, String.append_assoc, String.append_empty]
  | Random limit =>
      refine ⟨"SELECT " ++ quote_identifier column ++ " FROM "
        ++ quote_identifier schema ++ "." ++ quote_identifier table
        ++ " WHERE ",
        " ORDER BY random() LIMIT " ++ toString limit, ?_⟩
      simp only [build_query, String.append_assoc]
  | ReservoirPK sample_size pk =>
      refine ⟨"WITH random_ids AS (\n                        SELECT floor(random() * (SELECT MAX("
        ++ quote_identifier pk ++ ") FROM " ++ quote_identifier schema
        ++ "." ++ quote_identifier table
        ++ "))::bigint AS rand_id\n                        FROM generate_series(1, "
        ++ toString sample_size
        ++ " * 2)\n                    )\n                    SELECT t."
        ++ quote_identifier column ++ "\n                    FROM "
        ++ quote_identifier schema ++ "." ++ quote_identifier table
        ++ " t\n                    INNER JOIN random_ids r ON t."
        ++ quote_identifier pk ++ " = r.rand_id\n                    WHERE t.",
        "\n                    LIMIT " ++ toString sample_size, ?_⟩
      simp only [build_query, String.append_assoc]
  | TableSample percentage limit =>
      refine ⟨"SELECT " ++ quote_identifier column ++ " FROM "
        ++ quote_identifier schema ++ "." ++ quote_identifier table
        ++ " TABLESAMPLE BERNOULLI(" ++ fmtQ percentage ++ ") WHERE ",
        " LIMIT " ++ toString limit, ?_⟩
      simp only [build_query, String.append_assoc]

end Pgdrift

namespace Pgdrift

/-- IndexType (index.rs lines 7-14). -/
inductive IndexType where
  | Gin
  | Partial
  | BTreeExtracted
deriving DecidableEq

/-- IndexPriority (index.rs lines 28-35). -/
inductive IndexPriority where
  | High
  | Medium
  | Low
deriving DecidableEq

/-- IndexRecommendation (index.rs lines 49-56). -/
structure IndexRecommendation where
  field_path : String
  index_type : IndexType
  priority : IndexPriority
  reason : String
  sql : String
  estimated_benefit : String

/-- IndexConfig (index.rs lines 60-67). -/
structure IndexConfig where
  high_density_threshold : ℚ
  medium_density_threshold : ℚ
  min_occurences : Nat

/-- IndexConfig::default (index.rs lines 69-77). -/
def IndexConfig.default_config : IndexConfig :=
  { high_density_threshold := 8/10
    medium_density_threshold := 2/10
    min_occurences := 100 }

/-- JsonType's fmt::Display (types.rs lines 30-43). -/
def json_type_display (t : JsonType) : String :=
  match t with
  | .Null => "null"
  | .Boolean => "boolean"
  | .Number => "number"
  | .String => "string"
  | .Array => "array"
  | .Object => "object"

/-- get_dominant_type (index.rs lines 171-177): max_by_key over the present
histogram entries; Rust's max_by_key keeps the LAST maximal element, here
last in the canonical `all_types` order. -/
def get_dominant_type (stats : FieldStats) : Option JsonType :=
  (all_types.filter (fun t => 0 < stats.types t)).foldl
    (fun best t =>
      match best with
      | none => some t
      | some b => if stats.types b ≤ stats.types t then some t else best)
    none

/-- is_scalar_type (index.rs lines 179-184). -/
def is_scalar_type (json_type : Option JsonType) : Bool :=
  match json_type with
  | some .String => true
  | some .Number => true
  | some .Boolean => true
  | _ => false

/-- calculate_simple_hash (index.rs lines 353-356): fold over UTF-8 bytes
with wrapping u32 arithmetic. -/
def calculate_simple_hash (s : String) : Nat :=
  s.toUTF8.toList.foldl
    (fun hash b => (hash * 31 + b.toNat) % (2 ^ 32)) 0

/-- Lowercase hexadecimal rendering (`format!("{:x}", hash)`). -/
def hex_digits (n : Nat) : String :=
  String.mk (Nat.toDigits 16 n)

/-- generate_index_name (index.rs lines 333-351).  Rust's byte length and
Unicode alphanumeric test coincide with the embedding's char-based ones on
the ASCII identifiers involved. -/
def generate_index_name (table column path index_type : String) : String :=
  let clean_path := String.mk
    ((((path.replace "[]" "_arr").replace "." "_").data).filter
      (fun c => c.isAlphanum || c = '_'))
  let pfx := "idx_" ++ table ++ "_" ++ column ++ "_" ++ clean_path ++ "_"
    ++ index_type
  if pfx.length ≤ 63 then pfx
  else
    let hash := hex_digits (calculate_simple_hash pfx)
    let truncate_len := 63 - hash.length - 1
    (pfx.take truncate_len) ++ "_" ++ hash

/-- json_path_to_sql_conditions (index.rs lines 358-372). -/
def json_path_to_sql_conditions (path : String) : String :=
  let parts := path.splitOn "."
  if parts.length = 1 then
    let clean_part := (parts.headD "").replace "[]" ""
    "metadata ? \'" ++ clean_part ++ "\'"
  else
    let parent_path := String.intercalate ","
      ((parts.take (parts.length - 1)).map (fun p => p.replace "[]" ""))
    let last := (parts.getLastD "").replace "[]" ""
    "metadata #> \'\x7b" ++ parent_path ++ "\x7d\' ? \'" ++ last ++ "\'"

/-- escape_json_path (index.rs lines 374-378). -/
def escape_json_path (path : String) : String :=
  ((path.replace "[]" "").replace "\'" "\'\'").replace "." ","

/-- create_consolidated_gin_recommendation (index.rs lines 186-233). -/
def create_consolidated_gin_recommendation (table column : String)
    (primary_stats : FieldStats) (all_high_density : List FieldStats)
    (priority : IndexPriority) : IndexRecommendation :=
  let index_name := generate_index_name table column "gin" "gin"
  let field_list := String.intercalate ", "
    (all_high_density.map
      (fun s => s.path ++ " (" ++ fmtQ (s.density * 100) ++ "%)"))
  let sql := "-- GIN index for high-density fields: " ++ field_list
    ++ "\nCREATE INDEX " ++ index_name ++ " ON " ++ table
    ++ " USING GIN (" ++ column ++ ");"
  let reason :=
    if all_high_density.length = 1 then
      "High density (" ++ fmtQ (primary_stats.density * 100)
        ++ "%) - present in " ++ toString primary_stats.occurrences ++ "/"
        ++ toString primary_stats.total_samples
        ++ " samples. GIN index enables fast JSONB queries (@>, ?, ?&, ?|)"
    else
      toString all_high_density.length ++ " high-density fields ("
        ++ field_list
        ++ "). Single GIN index supports fast JSONB queries (@>, ?, ?&, ?|) for all fields."
  { field_path := primary_stats.path
    index_type := .Gin
    priority := priority
    reason := reason
    sql := sql
    estimated_benefit := "Improved query performance for existence checks and containment queries across all high-density fields." }

/-- create_partial_gin_recommendation (index.rs lines 235-270). -/
def create_partial_gin_recommendation (table column : String)
    (stats : FieldStats) (priority : IndexPriority) : IndexRecommendation :=
  let index_name := generate_index_name table column stats.path "partial_gin"
  let path_condition := json_path_to_sql_conditions stats.path
  { field_path := stats.path
    index_type := .Partial
    priority := priority
    reason := "Sparce field (" ++ fmtQ (stats.density * 100) ++ "%) - only "
      ++ toString stats.occurrences ++ "/" ++ toString stats.total_samples
      ++ " sample have this field. Partial index reduces index size and maintenance cost"
    sql := "-- Partial GIN index for sparse field: "
      ++ fmtQ (stats.density * 100)
      ++ "% of rows contain this field\nCREATE INDEX " ++ index_name
      ++ " ON " ++ table ++ " USING GIN (" ++ column ++ ") WHERE "
      ++ path_condition ++ ";"
    estimated_benefit := "Smaller index (~" ++ fmtQ (stats.density * 100)
      ++ "% of full GIN), faster updates, same query performance for matching rows" }

/-- create_btree_extracted_recommendation (index.rs lines 272-331).  The
`_ => unreachable!()` arm of the source is modelled by an empty pair: the
only caller guards with is_scalar_type. -/
def create_btree_extracted_recommendation (table column : String)
    (stats : FieldStats) (json_type : JsonType) (priority : IndexPriority) :
    IndexRecommendation :=
  let index_name := generate_index_name table column stats.path "btree_ext"
  let pair : String × String :=
    match json_type with
    | .String =>
        ("(" ++ column ++ " #>> \'\x7b" ++ escape_json_path stats.path
          ++ "\x7d\')", "TEXT")
    | .Number =>
        ("((" ++ column ++ " #>> \'\x7b" ++ escape_json_path stats.path
          ++ "\x7d\')::NUMERIC)", "NUMERIC")
    | .Boolean =>
        ("((" ++ column ++ " #>> \'\x7b" ++ escape_json_path stats.path
          ++ "\x7d\')::BOOLEAN)", "BOOLEAN")
    | _ => ("", "")
  { field_path := stats.path
    index_type := .BTreeExtracted
    priority := priority
    reason := "Medium density " ++ json_type_display json_type ++ " field ("
      ++ fmtQ (stats.density * 100) ++ "%) - "
      ++ toString stats.occurrences ++ "/" ++ toString stats.total_samples
      ++ " samples. B-tree index on extracted value range query and sorting."
    sql := "-- B-tree index on extracted " ++ pair.2 ++ " value: "
      ++ fmtQ (stats.density * 100) ++ "% density\nCREATE INDEX "
      ++ index_name ++ " ON " ++ table ++ " (" ++ pair.1 ++ ") WHERE "
      ++ pair.1 ++ " IS NOT NULL;"
    estimated_benefit := "Improved query performance for lookups and range queries on scalar values." }

/-- The high-density eligibility filter of recommend_index
(index.rs lines 89-99). -/
def eligible_high_density (config : IndexConfig) (s : FieldStats) : Bool :=
  decide (config.min_occurences ≤ s.occurrences)
    && decide (config.high_density_threshold ≤ s.density)
    && !(match get_dominant_type s with
        | some .Object => true
        | some .Array => true
        | _ => false)

/-- `priority_order` of the sort at the end of recommend_index
(index.rs lines 159-166). -/
def priority_order (p : IndexPriority) : Nat :=
  match p with
  | .High => 0
  | .Medium => 1
  | .Low => 2

/-- The stable sort_by at the end of recommend_index. -/
def sort_recommendations (recs : List IndexRecommendation) :
    List IndexRecommendation :=
  recs.mergeSort
    (fun a b => priority_order a.priority ≤ priority_order b.priority)

/-- One step of Rust's `max_by` over densities: the later element wins
ties (`max_by` keeps the last maximum). -/
def select_step (best : Option FieldStats) (s : FieldStats) :
    Option FieldStats :=
  match best with
  | none => some s
  | some b => if b.density ≤ s.density then some s else best

/-- The `max_by` of recommend_index (index.rs lines 104-111): the
high-density field of greatest density (last one under ties), none for an
empty list. -/
def select_primary (l : List FieldStats) : Option FieldStats :=
  l.foldl select_step none

/-- The per-field loop body of recommend_index (index.rs lines 123-157):
skips low-occurrence fields, container-dominant fields and high-density
fields (already consolidated), then emits a partial GIN or an extracted
B-tree recommendation by density band. -/
def other_recommendation (table column : String) (config : IndexConfig)
    (stats : FieldStats) : Option IndexRecommendation :=
  if stats.occurrences < config.min_occurences then none
  else
    let dominant_type := get_dominant_type stats
    if (match dominant_type with
        | some .Object => true
        | some .Array => true
        | _ => false) = true then none
    else if config.high_density_threshold ≤ stats.density then none
    else if 0 < stats.density
        ∧ stats.density ≤ config.medium_density_threshold then
      some (create_partial_gin_recommendation table column stats .Medium)
    else if config.medium_density_threshold < stats.density
        ∧ stats.density < config.high_density_threshold
        ∧ is_scalar_type dominant_type = true then
      some (create_btree_extracted_recommendation table column stats
        (dominant_type.getD .Null) .Medium)
    else none

/-- recommend_index (index.rs lines 80-169): one consolidated GIN
recommendation for all eligible high-density fields (representative: the
one `max_by` density keeps, i.e. the last maximum), then per-field partial
GIN and extracted B-tree recommendations, sorted by priority. -/
def recommend_index (table column : String) (field_stats : List FieldStats)
    (config : IndexConfig) : List IndexRecommendation :=
  let high_density_fields := field_stats.filter (eligible_high_density config)
  let gin_recs :=
    match select_primary high_density_fields with
    | some primary_field =>
        [create_consolidated_gin_recommendation table column primary_field
          high_density_fields .Medium]
    | none => []
  let other_recs :=
    field_stats.filterMap (other_recommendation table column config)
  sort_recommendations (gin_recs ++ other_recs)

end Pgdrift

namespace Pgdrift

theorem select_foldl_some (l : List FieldStats) :
    ∀ (b : FieldStats), ∃ c, l.foldl select_step (some b) = some c := by
  induction l with
  | nil => intro b; exact ⟨b, rfl⟩
  | cons x rest ih =>
      intro b
      rw [List.foldl_cons]
      show ∃ c, rest.foldl select_step
        (if b.density ≤ x.density then some x else some b) = some c
      by_cases h : b.density ≤ x.density
      · rw [if_pos h]; exact ih x
      · rw [if_neg h]; exact ih b

theorem select_primary_eq_none_iff (l : List FieldStats) :
    select_primary l = none ↔ l = [] := by
  cases l with
  | nil => simp [select_primary]
  | cons x rest =>
      simp only [select_primary, List.foldl_cons]
      constructor
      · intro h
        obtain ⟨c, hc⟩ := select_foldl_some rest x
        rw [show select_step none x = some x from rfl] at h
        rw [hc] at h
        cases h
      · intro h
        cases h

theorem select_step_some (acc : Option FieldStats) (x : FieldStats) :
    ∃ c, select_step acc x = some c := by
  cases acc with
  | none => exact ⟨x, rfl⟩
  | some b =>
      show ∃ c, (if b.density ≤ x.density then some x else some b) = some c
      by_cases hb : b.density ≤ x.density
      · rw [if_pos hb]; exact ⟨x, rfl⟩
      · rw [if_neg hb]; exact ⟨b, rfl⟩

theorem select_step_spec (acc : Option FieldStats) (x c : FieldStats)
    (hc : select_step acc x = some c) :
    x.density ≤ c.density ∧ (c = x ∨ acc = some c)
      ∧ (∀ b, acc = some b → b.density ≤ c.density) := by
  cases acc with
  | none =>
      cases hc
      exact ⟨le_refl _, Or.inl rfl, fun b hb => by cases hb⟩
  | some b =>
      by_cases hb : b.density ≤ x.density
      · have : some x = some c := by
          rw [← hc]
          show some x = if b.density ≤ x.density then some x else some b
          rw [if_pos hb]
        cases this
        refine ⟨le_refl _, Or.inl rfl, ?_⟩
        intro b2 hb2
        cases hb2
        exact hb
      · have : some b = some c := by
          rw [← hc]
          show some b = if b.density ≤ x.density then some x else some b
          rw [if_neg hb]
        cases this
        refine ⟨le_of_lt (not_le.mp hb), Or.inr rfl, ?_⟩
        intro b2 hb2
        cases hb2
        exact le_refl _

theorem select_foldl_spec (l : List FieldStats) :
    ∀ (acc : Option FieldStats) (s : FieldStats),
      l.foldl select_step acc = some s →
      ((s ∈ l ∨ acc = some s)
        ∧ (∀ x ∈ l, x.density ≤ s.density)
        ∧ (∀ b, acc = some b → b.density ≤ s.density)) := by
  induction l with
  | nil =>
      intro acc s h
      simp only [List.foldl_nil] at h
      refine ⟨Or.inr h, by simp, ?_⟩
      intro b hb
      rw [h] at hb
      cases hb
      exact le_refl _
  | cons x rest ih =>
      intro acc s h
      rw [List.foldl_cons] at h
      obtain ⟨hmem, hrest, hacc⟩ := ih (select_step acc x) s h
      obtain ⟨c, hc⟩ := select_step_some acc x
      obtain ⟨hxc, hcx, hbc⟩ := select_step_spec acc x c hc
      have hcs : c.density ≤ s.density := hacc c hc
      refine ⟨?_, ?_, ?_⟩
      · rcases hmem with hm | hm
        · exact Or.inl (List.mem_cons_of_mem x hm)
        · rw [hc] at hm
          cases hm
          rcases hcx with h1 | h1
          · subst h1; exact Or.inl (List.mem_cons_self _ _)
          · exact Or.inr h1
      · intro y hy
        rcases List.mem_cons.mp hy with h1 | h1
        · subst h1; exact le_trans hxc hcs
        · exact hrest y h1
      · intro b hb
        exact le_trans (hbc b hb) hcs

theorem select_primary_spec (l : List FieldStats) (s : FieldStats)
    (h : select_primary l = some s) :
    s ∈ l ∧ ∀ x ∈ l, x.density ≤ s.density := by
  obtain ⟨hmem, hall, -⟩ := select_foldl_spec l none s h
  refine ⟨?_, hall⟩
  rcases hmem with h1 | h1
  · exact h1
  · cases h1

end Pgdrift

namespace Pgdrift

theorem other_recommendation_spec (table column : String)
    (cfg : IndexConfig) (stats : FieldStats) (r : IndexRecommendation)
    (h : other_recommendation table column cfg stats = some r) :
    (r.index_type = IndexType.Partial
        ∨ r.index_type = IndexType.BTreeExtracted)
      ∧ r.priority = IndexPriority.Medium := by
  simp only [other_recommendation] at h
  split at h
  · cases h
  · split at h
    · cases h
    · split at h
      · cases h
      · split at h
        · cases h
          exact ⟨Or.inl rfl, rfl⟩
        · split at h
          · cases h
            exact ⟨Or.inr rfl, rfl⟩
          · cases h

theorem other_recs_no_gin (table column : String) (cfg : IndexConfig)
    (fss : List FieldStats) (r : IndexRecommendation)
    (h : r ∈ fss.filterMap (other_recommendation table column cfg)) :
    ¬ r.index_type = IndexType.Gin := by
  obtain ⟨stats, -, heq⟩ := List.mem_filterMap.mp h
  obtain ⟨hty, -⟩ := other_recommendation_spec table column cfg stats r heq
  rcases hty with h1 | h1 <;> rw [h1] <;> intro h2 <;> cases h2

/-- C8: recommend_index emits at most one Gin recommendation; exactly one
iff some field is eligible (occurrences ≥ min_occurences, dominant type
not Object/Array) with density ≥ high_density_threshold; and that single
recommendation names an eligible field of maximal density among the
eligible high-density fields. -/
theorem C8_single_consolidated_gin (table column : String)
    (fss : List FieldStats) (cfg : IndexConfig) :
    ((recommend_index table column fss cfg).filter
        (fun r => decide (r.index_type = IndexType.Gin))).length ≤ 1
      ∧ (((recommend_index table column fss cfg).filter
          (fun r => decide (r.index_type = IndexType.Gin))).length = 1
        ↔ ∃ s, s ∈ fss ∧ eligible_high_density cfg s = true)
      ∧ (∀ r, r ∈ recommend_index table column fss cfg
          → r.index_type = IndexType.Gin
          → ∃ s, s ∈ fss ∧ eligible_high_density cfg s = true
              ∧ r.field_path = s.path
              ∧ ∀ s2, s2 ∈ fss → eligible_high_density cfg s2 = true
                → s2.density ≤ s.density) := by
  set hdf := fss.filter (eligible_high_density cfg) with hhdf
  set grecs : List IndexRecommendation :=
    (match select_primary hdf with
      | some primary_field =>
          [create_consolidated_gin_recommendation table column primary_field
            hdf .Medium]
      | none => []) with hgrecs
  set others := fss.filterMap (other_recommendation table column cfg)
    with hothers
  have hrec : recommend_index table column fss cfg
      = sort_recommendations (grecs ++ others) := rfl
  have hperm : (recommend_index table column fss cfg).Perm (grecs ++ others) := by
    rw [hrec]
    exact List.mergeSort_perm _ _
  have hfo : others.filter (fun r => decide (r.index_type = IndexType.Gin))
      = [] := by
    rw [List.filter_eq_nil_iff]
    intro r hr
    simp only [decide_eq_true_eq]
    exact other_recs_no_gin table column cfg fss r hr
  have hflen : ((recommend_index table column fss cfg).filter
        (fun r => decide (r.index_type = IndexType.Gin))).length
      = (grecs.filter (fun r => decide (r.index_type = IndexType.Gin))).length := by
    rw [(hperm.filter _).length_eq, List.filter_append, hfo,
      List.append_nil]
  have hmemiff : ∀ r, r ∈ recommend_index table column fss cfg
      ↔ r ∈ grecs ++ others := fun r => hperm.mem_iff
  have helig_iff : (∃ s, s ∈ fss ∧ eligible_high_density cfg s = true)
      ↔ ¬ hdf = [] := by
    rw [hhdf]
    constructor
    · rintro ⟨s, hs, he⟩ hnil
      rw [List.filter_eq_nil_iff] at hnil
      exact absurd he (by simpa using hnil s hs)
    · intro hne
      rcases List.exists_mem_of_ne_nil _ hne with ⟨s, hs⟩
      have := List.mem_filter.mp hs
      exact ⟨s, this.1, this.2⟩
  cases hsel : select_primary hdf with
  | none =>
      have hempty : grecs = [] := by rw [hgrecs, hsel]
      have hcount : ((recommend_index table column fss cfg).filter
          (fun r => decide (r.index_type = IndexType.Gin))).length = 0 := by
        rw [hflen, hempty]
        rfl
      refine ⟨by omega, ?_, ?_⟩
      · rw [hcount]
        constructor
        · intro h01
          exact absurd h01 (by omega)
        · intro hex
          exact absurd ((select_primary_eq_none_iff hdf).mp hsel)
            (helig_iff.mp hex)
      · intro r hr hgin
        rcases List.mem_append.mp ((hmemiff r).mp hr) with h1 | h1
        · rw [hempty] at h1; cases h1
        · exact absurd hgin (other_recs_no_gin table column cfg fss r h1)
  | some primary =>
      obtain ⟨hpmem, hpmax⟩ := select_primary_spec hdf primary hsel
      have hpelig := List.mem_filter.mp hpmem
      have hone : grecs = [create_consolidated_gin_recommendation table
          column primary hdf .Medium] := by rw [hgrecs, hsel]
      have hcount : ((recommend_index table column fss cfg).filter
          (fun r => decide (r.index_type = IndexType.Gin))).length = 1 := by
        rw [hflen, hone]
        rfl
      refine ⟨by omega, ?_, ?_⟩
      · rw [hcount]
        exact ⟨fun _ => ⟨primary, hpelig.1, hpelig.2⟩, fun _ => rfl⟩
      · intro r hr hgin
        rcases List.mem_append.mp ((hmemiff r).mp hr) with h1 | h1
        · rw [hone] at h1
          rcases List.mem_singleton.mp h1 with rfl
          refine ⟨primary, hpelig.1, hpelig.2, rfl, ?_⟩
          intro s2 hs2 he2
          exact hpmax s2 (List.mem_filter.mpr ⟨hs2, he2⟩)
        · exact absurd hgin (other_recs_no_gin table column cfg fss r h1)

/-- C10: every recommendation recommend_index returns has priority Medium
(High and Low are never produced, so the High-Medium-Low output ordering
is vacuous). -/
theorem C10_all_recommendations_medium (table column : String)
    (fss : List FieldStats) (cfg : IndexConfig) :
    ((recommend_index table column fss cfg).all
      (fun r => decide (r.priority = IndexPriority.Medium))) = true := by
  rw [List.all_eq_true]
  intro r hr
  simp only [decide_eq_true_eq]
  have hperm : (recommend_index table column fss cfg).Perm
      ((match select_primary (fss.filter (eligible_high_density cfg)) with
        | some primary_field =>
            [create_consolidated_gin_recommendation table column
              primary_field (fss.filter (eligible_high_density cfg)) .Medium]
        | none => [])
      ++ fss.filterMap (other_recommendation table column cfg)) :=
    List.mergeSort_perm _ _
  rcases List.mem_append.mp (hperm.mem_iff.mp hr) with h1 | h1
  · cases hsel : select_primary (fss.filter (eligible_high_density cfg)) with
    | none => rw [hsel] at h1; cases h1
    | some primary =>
        rw [hsel] at h1
        rcases List.mem_singleton.mp h1 with rfl
        rfl
  · obtain ⟨stats, -, heq⟩ := List.mem_filterMap.mp h1
    exact (other_recommendation_spec table column cfg stats r heq).2

end Pgdrift
